import Mathlib

/-!
Shallow embedding of the Metasurface-Design repository
(`module/FieldPropagation.py` and `module/MetaTool.py`).

Conventions of the embedding:
* numpy real scalars are modelled as `ℚ` (the properties settled here are
  exact algebraic facts that do not depend on floating point rounding);
  complex-valued numpy entries are modelled as pairs `ℚ × ℚ` when only
  their identity matters, and as `ℂ` for the permittivity conversions.
* a numpy ndarray is a `Tensor`: a shape together with the flat entry list.
* a Python `assert` failure or runtime error is an `Except.error` carrying
  a `PyError` tag; code that cannot fail is a plain function.
* object attributes that may be unset (`np.array(None)` placeholders or
  attributes never assigned) are `Option` fields; reading an unset
  attribute where Python would raise is an explicit `PyError`.
-/

/-- Error outcomes of the Python code (assertion failures and the runtime
errors the interpreter itself would raise). -/
inductive PyError where
  | shapeMismatch
  | preconditionError
  | domainError
  | dimensionMismatch
  | typeError
  | indexError
  | attributeError
deriving DecidableEq, Repr

/-- A numpy ndarray with complex entries: its shape and its flattened data
(entries as real/imaginary pairs of rationals). -/
structure Tensor where
  shape : List Nat
  data : List (ℚ × ℚ)
deriving DecidableEq, Repr

/-- An element of the Python list `dataset['Lumerical_dataset']['parameters']`.
In the source this list is initialised to `[[]]`: it holds one inner list of
names.  Python's `in` operator compares a string against each element of the
outer list, and a string never equals a list, which this sum type mirrors. -/
inductive PyVal where
  | str : String → PyVal
  | list : List String → PyVal
deriving DecidableEq, Repr

/-- `scipy.constants.c`, the speed of light in vacuum [m/s]. -/
def sc_c : ℚ := 299792458

/-- `parameters[0].append(name)`: appends `name` to the inner list sitting at
index 0 of the parameters list (in every reachable state the head is a list). -/
def appendInner (params : List PyVal) (name : String) : List PyVal :=
  match params with
  | PyVal.list l :: rest => PyVal.list (l ++ [name]) :: rest
  | other => other

/-- State of a `fdtd_em_dataset` object: the `Lumerical_dataset` metadata
block plus the data keys of `self.dataset` and the raw vector attributes.
`dataset['lambda']`, `dataset['x']`, ... are the `(N, 1)` column reshapes of
the stored vectors, so a single copy of each vector is kept here. -/
structure fdtd_em_dataset where
  parameters : List PyVal
  attributes : List String
  geometry : String
  wavelength_vec : Option (List ℚ)
  f_vec : Option (List ℚ)
  x_vec : Option (List ℚ)
  y_vec : Option (List ℚ)
  z_vec : Option (List ℚ)
  e_mat : Option Tensor
  h_mat : Option Tensor
deriving DecidableEq, Repr

/-- `fdtd_em_dataset.__init__`: empty dataset with
`{'parameters': [[]], 'attributes': [], 'geometry': 'rectilinear'}`. -/
def fdtd_em_dataset.new : fdtd_em_dataset :=
  { parameters := [PyVal.list []]
    attributes := []
    geometry := "rectilinear"
    wavelength_vec := none
    f_vec := none
    x_vec := none
    y_vec := none
    z_vec := none
    e_mat := none
    h_mat := none }

/-- `fdtd_em_dataset.setWavelength`: stores `lambda`, derives `f = c / lambda`
and registers the two names.  The membership tests
`'lambda' in self.dataset['Lumerical_dataset']['parameters']` inspect the
OUTER list (whose sole element is the inner name list) while the `append`
goes to the inner list `parameters[0]`, exactly as in the source. -/
def fdtd_em_dataset.setWavelength (d : fdtd_em_dataset) (wavelength_vec : List ℚ) :
    fdtd_em_dataset :=
  let d := { d with wavelength_vec := some wavelength_vec,
                    f_vec := some (wavelength_vec.map (fun l => sc_c / l)) }
  let d := if d.parameters.contains (PyVal.str "lambda") then d
           else { d with parameters := appendInner d.parameters "lambda" }
  if d.parameters.contains (PyVal.str "f") then d
  else { d with parameters := appendInner d.parameters "f" }

/-- `fdtd_em_dataset.setRegion`: stores the three spatial axis vectors. -/
def fdtd_em_dataset.setRegion (d : fdtd_em_dataset) (x_vec y_vec z_vec : List ℚ) :
    fdtd_em_dataset :=
  { d with x_vec := some x_vec, y_vec := some y_vec, z_vec := some z_vec }

/-- `fdtd_em_dataset.setX`. -/
def fdtd_em_dataset.setX (d : fdtd_em_dataset) (x_vec : List ℚ) : fdtd_em_dataset :=
  { d with x_vec := some x_vec }

/-- `fdtd_em_dataset.setY`. -/
def fdtd_em_dataset.setY (d : fdtd_em_dataset) (y_vec : List ℚ) : fdtd_em_dataset :=
  { d with y_vec := some y_vec }

/-- `fdtd_em_dataset.setZ`. -/
def fdtd_em_dataset.setZ (d : fdtd_em_dataset) (z_vec : List ℚ) : fdtd_em_dataset :=
  { d with z_vec := some z_vec }

/-- `fdtd_em_dataset.setE`: asserts
`e_mat.shape == (len(self.x_vec), len(self.y_vec), len(self.z_vec),
len(self.wavelength_vec), 3)` and on success stores the tensor and registers
the attribute name `E` (the membership test here is on the flat attribute
list, so it is genuinely idempotent).  Reading an axis attribute that was
never assigned raises `AttributeError` in Python. -/
def fdtd_em_dataset.setE (d : fdtd_em_dataset) (e : Tensor) :
    Except PyError fdtd_em_dataset :=
  match d.x_vec, d.y_vec, d.z_vec, d.wavelength_vec with
  | some xv, some yv, some zv, some wv =>
    if e.shape = [xv.length, yv.length, zv.length, wv.length, 3] then
      Except.ok { d with e_mat := some e,
                         attributes := if d.attributes.contains "E" then d.attributes
                                       else d.attributes ++ ["E"] }
    else Except.error PyError.shapeMismatch
  | _, _, _, _ => Except.error PyError.attributeError

/-- `fdtd_em_dataset.setH`: same contract as `setE` for the `H` attribute. -/
def fdtd_em_dataset.setH (d : fdtd_em_dataset) (h : Tensor) :
    Except PyError fdtd_em_dataset :=
  match d.x_vec, d.y_vec, d.z_vec, d.wavelength_vec with
  | some xv, some yv, some zv, some wv =>
    if h.shape = [xv.length, yv.length, zv.length, wv.length, 3] then
      Except.ok { d with h_mat := some h,
                         attributes := if d.attributes.contains "H" then d.attributes
                                       else d.attributes ++ ["H"] }
    else Except.error PyError.shapeMismatch
  | _, _, _, _ => Except.error PyError.attributeError

/-- State of an `em_field` object: the six entries of `self.field`.
Entries the constructor received as `None` are `none`. -/
structure em_field where
  wavelength_vec : Option (List ℚ)
  x_vec : Option (List ℚ)
  y_vec : Option (List ℚ)
  z_vec : Option (List ℚ)
  e_mat : Option Tensor
  h_mat : Option Tensor
deriving DecidableEq, Repr

/-- `em_field()` with all-default (`None`) arguments. -/
def em_field.new : em_field :=
  { wavelength_vec := none, x_vec := none, y_vec := none,
    z_vec := none, e_mat := none, h_mat := none }

/-- `em_field.setWavelength`. -/
def em_field.setWavelength (f : em_field) (wavelength_vec : List ℚ) : em_field :=
  { f with wavelength_vec := some wavelength_vec }

/-- `em_field.getWavelength`. -/
def em_field.getWavelength (f : em_field) : Option (List ℚ) :=
  f.wavelength_vec

/-- `em_field.setX`. -/
def em_field.setX (f : em_field) (x_vec : List ℚ) : em_field :=
  { f with x_vec := some x_vec }

/-- `em_field.getX`. -/
def em_field.getX (f : em_field) : Option (List ℚ) :=
  f.x_vec

/-- `em_field.setY`. -/
def em_field.setY (f : em_field) (y_vec : List ℚ) : em_field :=
  { f with y_vec := some y_vec }

/-- `em_field.getY`. -/
def em_field.getY (f : em_field) : Option (List ℚ) :=
  f.y_vec

/-- `em_field.setZ`. -/
def em_field.setZ (f : em_field) (z_vec : List ℚ) : em_field :=
  { f with z_vec := some z_vec }

/-- `em_field.getZ`. -/
def em_field.getZ (f : em_field) : Option (List ℚ) :=
  f.z_vec

/-- `em_field.setRegion`: transcribed exactly from the source, which reads
`self.setX(x_vec); self.setX(y_vec); self.setX(z_vec)`. -/
def em_field.setRegion (f : em_field) (x_vec y_vec z_vec : List ℚ) : em_field :=
  ((f.setX x_vec).setX y_vec).setX z_vec

/-- `em_field.setE`: stores the tensor into `self.field['e_mat']`;
no validation of any kind is performed. -/
def em_field.setE (f : em_field) (e_mat : Tensor) : em_field :=
  { f with e_mat := some e_mat }

/-- `em_field.getE`. -/
def em_field.getE (f : em_field) : Option Tensor :=
  f.e_mat

/-- `em_field.setH`: stores the tensor into `self.field['h_mat']`;
no validation of any kind is performed. -/
def em_field.setH (f : em_field) (h_mat : Tensor) : em_field :=
  { f with h_mat := some h_mat }

/-- `em_field.getH`. -/
def em_field.getH (f : em_field) : Option Tensor :=
  f.h_mat

/-- `em_field.toFdtdDataset`: builds a fresh `fdtd_em_dataset` and feeds it
the field's wavelength, region and tensors; `setE`/`setH` may fail their
shape assertions.  Passing unset (`None`) entries into the dataset setters
would raise a `TypeError` inside numpy (`len()` of a 0-d array). -/
def em_field.toFdtdDataset (f : em_field) : Except PyError fdtd_em_dataset :=
  match f.wavelength_vec, f.x_vec, f.y_vec, f.z_vec, f.e_mat, f.h_mat with
  | some wv, some xv, some yv, some zv, some e, some h =>
    let ds := fdtd_em_dataset.new.setWavelength wv
    let ds := ds.setRegion xv yv zv
    match ds.setE e with
    | Except.error er => Except.error er
    | Except.ok ds =>
      match ds.setH h with
      | Except.error er => Except.error er
      | Except.ok ds => Except.ok ds
  | _, _, _, _, _, _ => Except.error PyError.typeError

/-- The opaque simulator handle: `fdtd.farfieldexact3d(dataset, x, y, z,
wavelength_indices, index)` returning an ndarray. -/
def FdtdFun : Type :=
  fdtd_em_dataset → List ℚ → List ℚ → List ℚ → List Nat → ℚ → Tensor

/-- Result of `fieldPropagationLumapi`: either the empty `em_field()` of the
short-circuit branch or the ndarray coming back from the simulator. -/
inductive PropResult where
  | emptyField : PropResult
  | field : Tensor → PropResult
deriving DecidableEq, Repr

/-- `np.reshape(t, (*t.shape, 1))`: appends a trailing singleton axis; the
element count is unchanged, so this reshape always succeeds. -/
def npAppendUnitAxis (t : Tensor) : Tensor :=
  { shape := t.shape ++ [1], data := t.data }

/-- `fieldPropagationLumapi(field, dest_x_vec, dest_y_vec, dest_z_vec,
wavelength_index_vec=None, index=1, fdtd=None)`, with the source's exact
evaluation order:
1. `wavelength_index_vec is None` → default to `np.arange(len(wavelengths))`
   (raises `TypeError` when the field's wavelength entry is unset);
   an explicitly given empty vector returns `em_field()` at once;
2. the intermediate `em_field(...)` is built; the slices
   `field.getE()[:, :, :, :, :]` require tensors of at least 5 axes
   (`IndexError` otherwise, `TypeError` on the unset placeholder);
3. `assert fdtd != None`;
4. `fdtd.farfieldexact3d(fld.toFdtdDataset(), dest_x, dest_y, dest_z,
   wavelength_index_vec + 1, index)`;
5. the raw result is returned as-is when more than one wavelength index was
   requested, otherwise reshaped to `(*shape, 1)`. -/
def fieldPropagationLumapi (field : em_field) (dest_x_vec dest_y_vec dest_z_vec : List ℚ)
    (wavelength_index_vec : Option (List Nat)) (index : ℚ) (fdtd : Option FdtdFun) :
    Except PyError PropResult :=
  match wavelength_index_vec with
  | some [] => Except.ok PropResult.emptyField
  | _ =>
    let wivRes : Except PyError (List Nat) :=
      match wavelength_index_vec with
      | none =>
        match field.getWavelength with
        | some wv => Except.ok (List.range wv.length)
        | none => Except.error PyError.typeError
      | some l => Except.ok l
    match wivRes with
    | Except.error er => Except.error er
    | Except.ok wiv =>
      match field.getE, field.getH with
      | some e, some h =>
        if 5 ≤ e.shape.length ∧ 5 ≤ h.shape.length then
          let fld : em_field :=
            { wavelength_vec := field.getWavelength
              x_vec := field.getX
              y_vec := field.getY
              z_vec := field.getZ
              e_mat := some e
              h_mat := some h }
          match fdtd with
          | none => Except.error PyError.preconditionError
          | some f =>
            match fld.toFdtdDataset with
            | Except.error er => Except.error er
            | Except.ok ds =>
              let far_field := f ds dest_x_vec dest_y_vec dest_z_vec
                (wiv.map (fun i => i + 1)) index
              if 1 < wiv.length then Except.ok (PropResult.field far_field)
              else Except.ok (PropResult.field (npAppendUnitAxis far_field))
        else Except.error PyError.indexError
      | _, _ => Except.error PyError.typeError

/-!  `module/MetaTool.py`  -/

/-- `permittivity2nk(permittivity)`: `np.sqrt` on a complex scalar is the
principal square root, i.e. `z ^ (1/2)` with the principal logarithm;
returns the pair of its real and imaginary parts. -/
noncomputable def permittivity2nk (permittivity : ℂ) : ℝ × ℝ :=
  let temp := permittivity ^ ((1 : ℂ) / 2)
  (temp.re, temp.im)

/-- `nk2permittivity(n, k)`: `(n + 1j * k) ** 2`. -/
noncomputable def nk2permittivity (n k : ℝ) : ℂ :=
  ((n : ℂ) + (k : ℂ) * Complex.I) ^ 2

/-- `distanceCycle(x, y, cycle_min, cycle_max, start_end=0)`: asserts both
inputs lie in `[cycle_min, cycle_max]`, sorts them, and returns
`min(y - x, x + cycle_max - cycle_min - y + start_end)`.  Stated over an
arbitrary linear ordered field so the theorem covers the real instance. -/
def distanceCycle {K : Type} [LinearOrderedField K] (x y cycle_min cycle_max start_end : K) :
    Except PyError K :=
  if cycle_min ≤ x ∧ x ≤ cycle_max ∧ cycle_min ≤ y ∧ y ≤ cycle_max then
    let x' := min x y
    let y' := max x y
    Except.ok (min (y' - x') (x' + cycle_max - cycle_min - y' + start_end))
  else Except.error PyError.domainError

/-- The axis loop of `extendField`: the concatenation over
`i in range(extend)` of `vec + period * i`, then re-centred by subtracting
`center = (x_extend_vec[0] + x_extend_vec[-1]) / 2`.  When the extended
vector is empty (an empty axis vector or a zero extension count) the
accesses `[0]`/`[-1]` raise `IndexError` in Python. -/
def extendAxis (vec : List ℚ) (period : ℚ) (extend : Nat) : Except PyError (List ℚ) :=
  match (List.range extend).flatMap (fun i => vec.map (fun v => v + period * (i : ℚ))) with
  | [] => Except.error PyError.indexError
  | v0 :: rest =>
    let center := (v0 + (v0 :: rest).getLast (List.cons_ne_nil v0 rest)) / 2
    Except.ok ((v0 :: rest).map (fun v => v - center))

/-- The block-copy loop of `extendField`: the extended matrix whose
`(i, j)` period block equals the original matrix.  Cells (which may carry
the trailing tensor axes) are an arbitrary type `α`; rows are tiled
`extend_x` times along the first axis and, inside each row, `extend_y`
times along the second. -/
def extendGrid {α : Type} (mat : List (List α)) (extend_x extend_y : Nat) :
    List (List α) :=
  (List.replicate extend_x (mat.map (fun row => (List.replicate extend_y row).flatten))).flatten

/-- `extendField(x_vec, y_vec, e_mat, h_mat, period_x, period_y,
extend_x, extend_y)`: extends the x axis, then the y axis (each raising
`IndexError` on an empty extended vector, in the source's order), then
returns them with the tiled E and H matrices. -/
def extendField {α β : Type} (x_vec y_vec : List ℚ) (e_mat : List (List α))
    (h_mat : List (List β)) (period_x period_y : ℚ) (extend_x extend_y : Nat) :
    Except PyError (List ℚ × List ℚ × List (List α) × List (List β)) :=
  match extendAxis x_vec period_x extend_x with
  | Except.error er => Except.error er
  | Except.ok x_extend_vec =>
    match extendAxis y_vec period_y extend_y with
    | Except.error er => Except.error er
    | Except.ok y_extend_vec =>
      Except.ok (x_extend_vec, y_extend_vec,
        extendGrid e_mat extend_x extend_y,
        extendGrid h_mat extend_x extend_y)

/-- A 2-D numpy array for `integrate`: its shape and its entry function
(`integrate` only ever reads in-bounds entries). -/
structure NpMat where
  rows : Nat
  cols : Nat
  entry : Nat → Nat → ℚ

/-- `integrate(mat, x_vec, y_vec, radius=np.inf)`: asserts
`mat.shape == (len(x_vec), len(y_vec))`, then sums
`mat[i, j] * (x_vec[i+1] - x_vec[i]) * (y_vec[j+1] - y_vec[j])` over
`i < len(x_vec) - 1`, `j < len(y_vec) - 1`; with a finite radius
(`radius = none` stands for the default `np.inf`) only the cells with
`x_vec[i]^2 + y_vec[j]^2 <= radius^2` contribute. -/
def integrate (mat : NpMat) (x_vec y_vec : List ℚ) (radius : Option ℚ) :
    Except PyError ℚ :=
  if mat.rows = x_vec.length ∧ mat.cols = y_vec.length then
    match radius with
    | none => Except.ok
        (∑ i ∈ Finset.range (x_vec.length - 1), ∑ j ∈ Finset.range (y_vec.length - 1),
          mat.entry i j * (x_vec.getD (i + 1) 0 - x_vec.getD i 0)
            * (y_vec.getD (j + 1) 0 - y_vec.getD j 0))
    | some r => Except.ok
        (∑ i ∈ Finset.range (x_vec.length - 1), ∑ j ∈ Finset.range (y_vec.length - 1),
          if x_vec.getD i 0 ^ 2 + y_vec.getD j 0 ^ 2 ≤ r ^ 2 then
            mat.entry i j * (x_vec.getD (i + 1) 0 - x_vec.getD i 0)
              * (y_vec.getD (j + 1) 0 - y_vec.getD j 0)
          else 0)
  else Except.error PyError.dimensionMismatch

/-!  Concrete sample inputs used by witnesses and counterexamples. -/

/-- A tensor of shape `(1, 1, 1, 1, 3)` (matching four axes of length 1). -/
def tensor11113 : Tensor :=
  { shape := [1, 1, 1, 1, 3], data := List.replicate 3 ((1 : ℚ), (0 : ℚ)) }

/-- A tensor of shape `(2, 1, 1, 1, 3)` (NOT matching four axes of length 1). -/
def tensor21113 : Tensor :=
  { shape := [2, 1, 1, 1, 3], data := List.replicate 6 ((1 : ℚ), (0 : ℚ)) }

/-- A Field Container whose four axes all have length 1 and whose tensors are
still unset. -/
def sampleFieldAxes : em_field :=
  { wavelength_vec := some [1], x_vec := some [0], y_vec := some [0],
    z_vec := some [0], e_mat := none, h_mat := none }

/-- A Dataset Adapter whose four axes all have length 1. -/
def sampleDataset : fdtd_em_dataset :=
  (fdtd_em_dataset.new.setWavelength [1]).setRegion [0] [0] [0]

/-- A fully populated Field Container with four axes of length 1 and
well-shaped tensors. -/
def sampleFieldFull : em_field :=
  { wavelength_vec := some [1], x_vec := some [0], y_vec := some [0],
    z_vec := some [0], e_mat := some tensor11113, h_mat := some tensor11113 }

/-- A Field Container with distinguishable stored axes, for `setRegion`. -/
def sampleFieldXYZ : em_field :=
  { wavelength_vec := none, x_vec := some [10], y_vec := some [20],
    z_vec := some [30], e_mat := none, h_mat := none }

/-- 2×2 matrix whose only cell read by `integrate` is `(0, 0)`. -/
def sampleMatA : NpMat :=
  { rows := 2, cols := 2, entry := fun i j => if i = 0 ∧ j = 0 then 7 else 1 }

/-- Same as `sampleMatA` at `(0, 0)` but different in the last row/column. -/
def sampleMatB : NpMat :=
  { rows := 2, cols := 2, entry := fun i j => if i = 0 ∧ j = 0 then 7 else 2 }

/-!  Helper lemmas (shared). -/

theorem length_flatten_replicate {γ : Type} (k : Nat) (l : List γ) :
    (List.replicate k l).flatten.length = k * l.length := by
  induction k with
  | zero => simp
  | succ n ih => simp [List.replicate_succ, ih, Nat.succ_mul, Nat.add_comm]

theorem getD_flatten_replicate {γ : Type} (i : Nat) :
    ∀ (k : Nat) (l : List γ) (r : Nat) (d : γ), i < k → r < l.length →
    (List.replicate k l).flatten.getD (i * l.length + r) d = l.getD r d := by
  induction i with
  | zero =>
    intro k l r d hik hr
    rcases k with _ | k
    · omega
    · rw [List.replicate_succ, List.flatten_cons]
      simpa using List.getD_append l (List.replicate k l).flatten d r hr
  | succ n ih =>
    intro k l r d hik hr
    rcases k with _ | k
    · omega
    · rw [List.replicate_succ, List.flatten_cons]
      have hlen : l.length ≤ (n + 1) * l.length + r := by
        have : (n + 1) * l.length = l.length + n * l.length := by ring
        omega
      rw [List.getD_append_right l _ d _ hlen]
      have hsub : (n + 1) * l.length + r - l.length = n * l.length + r := by
        have : (n + 1) * l.length = l.length + n * l.length := by ring
        omega
      rw [hsub]
      exact ih k l r d (by omega) hr

theorem getD_map_of_lt {γ δ : Type} (f : γ → δ) (l : List γ) (r : Nat) (d : δ) (d' : γ)
    (hr : r < l.length) : (l.map f).getD r d = f (l.getD r d') := by
  rw [List.getD_eq_getElem (l.map f) d (by simpa using hr),
      List.getD_eq_getElem l d' hr, List.getElem_map]

theorem length_flatMap_const {γ : Type} (g : Nat → List γ) (n c : Nat)
    (hg : ∀ i, (g i).length = c) : ((List.range n).flatMap g).length = n * c := by
  induction n with
  | zero => simp
  | succ m ih =>
    rw [List.range_succ, List.flatMap_append]
    simp [ih, hg, Nat.succ_mul]

/-!  Claim theorems. -/

/-- C1 counterexample: on the Field Container (`em_field`) itself, `setE`
does NOT fail when the tensor shape differs from
`(len(x), len(y), len(z), len(wavelength), 3)`: with all four axes of
length 1, a tensor of shape `(2, 1, 1, 1, 3)` is accepted by `setE` and
`setH` and stored, where the claim demands a ShapeMismatch failure. -/
theorem C1_em_field_no_validation_counterexample :
    tensor21113.shape ≠ [1, 1, 1, 1, 3] ∧
    (sampleFieldAxes.setE tensor21113).getE = some tensor21113 ∧
    (sampleFieldAxes.setH tensor21113).getH = some tensor21113 := by
  refine ⟨by decide, rfl, rfl⟩

/-- C1 (amended): the shape check lives in the Dataset Adapter, not the
Field Container.  `fdtd_em_dataset.setE`/`setH` fail with ShapeMismatch
exactly when the tensor shape differs from
`(len(x), len(y), len(z), len(wavelength), 3)` for the axes stored at the
time of the call, and otherwise succeed with the tensor stored unchanged;
`em_field.setE`/`setH` accept any tensor without validation and
`getE`/`getH` return it unchanged. -/
theorem C1_shape_check_location (d : fdtd_em_dataset) (xv yv zv wv : List ℚ)
    (e h : Tensor) (hx : d.x_vec = some xv) (hy : d.y_vec = some yv)
    (hz : d.z_vec = some zv) (hw : d.wavelength_vec = some wv) :
    ((e.shape ≠ [xv.length, yv.length, zv.length, wv.length, 3] →
        d.setE e = Except.error PyError.shapeMismatch) ∧
     (e.shape = [xv.length, yv.length, zv.length, wv.length, 3] →
        ∃ d', d.setE e = Except.ok d' ∧ d'.e_mat = some e) ∧
     (h.shape ≠ [xv.length, yv.length, zv.length, wv.length, 3] →
        d.setH h = Except.error PyError.shapeMismatch) ∧
     (h.shape = [xv.length, yv.length, zv.length, wv.length, 3] →
        ∃ d', d.setH h = Except.ok d' ∧ d'.h_mat = some h)) ∧
    (∀ (f : em_field) (e' h' : Tensor),
      (f.setE e').getE = some e' ∧ (f.setH h').getH = some h') := by
  constructor
  · refine ⟨?_, ?_, ?_, ?_⟩
    · intro hne
      unfold fdtd_em_dataset.setE
      simp only [hx, hy, hz, hw]
      rw [if_neg hne]
    · intro heq
      unfold fdtd_em_dataset.setE
      simp only [hx, hy, hz, hw]
      rw [if_pos heq]
      exact ⟨_, rfl, rfl⟩
    · intro hne
      unfold fdtd_em_dataset.setH
      simp only [hx, hy, hz, hw]
      rw [if_neg hne]
    · intro heq
      unfold fdtd_em_dataset.setH
      simp only [hx, hy, hz, hw]
      rw [if_pos heq]
      exact ⟨_, rfl, rfl⟩
  · intro f e' h'
    exact ⟨rfl, rfl⟩

/-- C1 witness: the amended theorem applied to the concrete Dataset Adapter
with four axes of length 1, a mismatched tensor and a matching tensor. -/
theorem C1_shape_check_location_witness :
    sampleDataset.setE tensor21113 = Except.error PyError.shapeMismatch ∧
    ∃ d', sampleDataset.setE tensor11113 = Except.ok d' ∧
      d'.e_mat = some tensor11113 := by
  have h1 := C1_shape_check_location sampleDataset [0] [0] [0] [1]
    tensor21113 tensor11113 (by decide) (by decide) (by decide) (by decide)
  have h2 := C1_shape_check_location sampleDataset [0] [0] [0] [1]
    tensor11113 tensor11113 (by decide) (by decide) (by decide) (by decide)
  exact ⟨h1.1.1 (by decide), h2.1.2.1 (by decide)⟩

/-- C2: the registration of `lambda` and `f` is NOT idempotent.  The guard
`'lambda' in self.dataset['Lumerical_dataset']['parameters']` tests
membership in the outer list (whose only element is the inner name list, so
the test is always false) while the `append` goes to the inner list
`parameters[0]`; hence every call to `setWavelength` appends both names
again.  After two calls the inner parameter list holds each name twice. -/
theorem C2_setWavelength_duplicates :
    ((fdtd_em_dataset.new.setWavelength [1]).setWavelength [1]).parameters =
      [PyVal.list ["lambda", "f", "lambda", "f"]] := by
  decide

/-- C3: `em_field.setRegion(x, y, z)` calls `setX` three times (a slip for
`setX`/`setY`/`setZ`): afterwards the x axis holds `z`, while the y and z
axes keep their previous values, not the arguments. -/
theorem C3_setRegion_sets_only_x :
    (sampleFieldXYZ.setRegion [1] [2] [3]).getX = some [3] ∧
    (sampleFieldXYZ.setRegion [1] [2] [3]).getY = some [20] ∧
    (sampleFieldXYZ.setRegion [1] [2] [3]).getZ = some [30] := by
  refine ⟨rfl, rfl, rfl⟩

/-- C5: with `wavelength_index_vec` equal to an explicit empty sequence,
`fieldPropagationLumapi` returns the empty Field Container `em_field()` for
every field, every destination grid and every simulator handle (including
the absent one) — the result does not depend on the handle at all, so the
simulator's far-field operation is never invoked. -/
theorem C5_empty_indices_short_circuit (field : em_field)
    (dest_x dest_y dest_z : List ℚ) (index : ℚ) (fdtd : Option FdtdFun) :
    fieldPropagationLumapi field dest_x dest_y dest_z (some []) index fdtd =
      Except.ok PropResult.emptyField := rfl

/-- C6 counterexample: a call with `fdtd = None` does NOT always fail: with
an explicitly empty `wavelength_index_vec` the function short-circuits
before the `assert fdtd != None` and returns the empty Field Container. -/
theorem C6_counterexample_empty_indices :
    fieldPropagationLumapi em_field.new [] [] [] (some []) 1 none =
      Except.ok PropResult.emptyField := rfl

/-- C6 (amended): when the simulator handle is absent the call fails with
PreconditionError, provided it is not short-circuited by an explicitly
empty `wavelength_index_vec` and the steps preceding the assert succeed
(the wavelength axis is present when the indices are defaulted, and both
stored tensors have at least 5 axes so the slices `[:, :, :, :, :]` are
legal). -/
theorem C6_missing_handle_fails (field : em_field)
    (dest_x dest_y dest_z : List ℚ) (wiv : Option (List Nat)) (index : ℚ)
    (e h : Tensor) (he : field.e_mat = some e) (hh : field.h_mat = some h)
    (he5 : 5 ≤ e.shape.length) (hh5 : 5 ≤ h.shape.length)
    (hwl : wiv = none → ∃ wv, field.wavelength_vec = some wv)
    (hne : wiv ≠ some []) :
    fieldPropagationLumapi field dest_x dest_y dest_z wiv index none =
      Except.error PyError.preconditionError := by
  rcases wiv with _ | l
  · obtain ⟨wv, hwv⟩ := hwl rfl
    simp [fieldPropagationLumapi, em_field.getWavelength, em_field.getE,
      em_field.getH, hwv, he, hh, he5, hh5]
  · rcases l with _ | ⟨a, as⟩
    · exact absurd rfl hne
    · simp [fieldPropagationLumapi, em_field.getE, em_field.getH,
        he, hh, he5, hh5]

/-- C6 witness: the amended theorem applied to a concrete well-formed field
with one requested wavelength index and an absent handle. -/
theorem C6_missing_handle_fails_witness :
    fieldPropagationLumapi sampleFieldFull [] [] [] (some [0]) 1 none =
      Except.error PyError.preconditionError :=
  C6_missing_handle_fails sampleFieldFull [] [] [] (some [0]) 1
    tensor11113 tensor11113 rfl rfl (by decide) (by decide)
    (fun hc => nomatch hc) (by decide)

/-- C7: for inputs inside `[cycle_min, cycle_max]`, `distanceCycle` returns
`min(|x - y|, (cycle_max - cycle_min) - |x - y| + start_end)`, and whenever
`x` or `y` lies outside the range the call fails with DomainError — over
any linear ordered field, hence in particular over the reals. -/
theorem C7_distanceCycle_spec {K : Type} [LinearOrderedField K]
    (x y cycle_min cycle_max start_end : K) :
    (cycle_min ≤ x → x ≤ cycle_max → cycle_min ≤ y → y ≤ cycle_max →
      distanceCycle x y cycle_min cycle_max start_end =
        Except.ok (min |x - y| ((cycle_max - cycle_min) - |x - y| + start_end))) ∧
    ((x < cycle_min ∨ cycle_max < x ∨ y < cycle_min ∨ cycle_max < y) →
      distanceCycle x y cycle_min cycle_max start_end =
        Except.error PyError.domainError) := by
  constructor
  · intro h1 h2 h3 h4
    unfold distanceCycle
    rw [if_pos ⟨h1, h2, h3, h4⟩]
    have habs : |x - y| = max x y - min x y := by
      rw [max_sub_min_eq_abs, abs_sub_comm]
    rw [habs]
    rw [min_comm]
    ring_nf
  · intro hout
    have hnc : ¬(cycle_min ≤ x ∧ x ≤ cycle_max ∧ cycle_min ≤ y ∧ y ≤ cycle_max) := by
      rintro ⟨h1, h2, h3, h4⟩
      rcases hout with h | h | h | h <;> linarith
    unfold distanceCycle
    rw [if_neg hnc]

/-- C7 witness: both parts of the theorem at concrete rational inputs. -/
theorem C7_distanceCycle_witness :
    distanceCycle (3 : ℚ) 1 0 4 0 =
      Except.ok (min |(3 : ℚ) - 1| ((4 - 0) - |(3 : ℚ) - 1| + 0)) ∧
    distanceCycle (5 : ℚ) 1 0 4 0 = Except.error PyError.domainError := by
  constructor
  · exact (C7_distanceCycle_spec (3 : ℚ) 1 0 4 0).1
      (by norm_num) (by norm_num) (by norm_num) (by norm_num)
  · exact (C7_distanceCycle_spec (5 : ℚ) 1 0 4 0).2
      (Or.inr (Or.inl (by norm_num)))

/-- C9: for every complex permittivity off the branch cut of the principal
square root (the closed negative real axis is where `np.sqrt` switches
sign), `nk2permittivity` applied to the pair returned by `permittivity2nk`
recovers the permittivity. -/
theorem C9_permittivity_roundtrip (permittivity : ℂ)
    (hoff : ¬(permittivity.im = 0 ∧ permittivity.re < 0)) :
    nk2permittivity (permittivity2nk permittivity).1
      (permittivity2nk permittivity).2 = permittivity := by
  unfold nk2permittivity permittivity2nk
  simp only
  rw [Complex.re_add_im]
  by_cases hp : permittivity = 0
  · subst hp
    rw [Complex.zero_cpow (by norm_num : (1 : ℂ) / 2 ≠ 0)]
    norm_num
  · rw [pow_two, ← Complex.cpow_add _ _ hp]
    norm_num

/-- C9 witness: the round trip at the concrete permittivity `i` (which has
nonzero imaginary part, hence is off the branch cut). -/
theorem C9_permittivity_roundtrip_witness :
    nk2permittivity (permittivity2nk Complex.I).1
      (permittivity2nk Complex.I).2 = Complex.I :=
  C9_permittivity_roundtrip Complex.I
    (by simp [Complex.I_im, Complex.I_re])

/-- C10: `integrate` never reads the last row or last column of the matrix
(its index loops stop at `len - 1` and the cell weights use left endpoints),
although the dimension check requires them to be present: two matrices of
the same checked shape that agree away from the last row and last column
integrate to the same value, for every radius (including the default
infinite one, modelled as `none`). -/
theorem C10_integrate_ignores_last_row_col (m1 m2 : NpMat)
    (x_vec y_vec : List ℚ) (radius : Option ℚ)
    (hrows : m1.rows = m2.rows) (hcols : m1.cols = m2.cols)
    (hagree : ∀ i j, i + 1 < m1.rows → j + 1 < m1.cols →
      m1.entry i j = m2.entry i j) :
    integrate m1 x_vec y_vec radius = integrate m2 x_vec y_vec radius := by
  unfold integrate
  rw [← hrows, ← hcols]
  by_cases hcond : m1.rows = x_vec.length ∧ m1.cols = y_vec.length
  · rw [if_pos hcond, if_pos hcond]
    rcases radius with _ | r
    · simp only
      congr 1
      refine Finset.sum_congr rfl (fun i hi => ?_)
      refine Finset.sum_congr rfl (fun j hj => ?_)
      rw [hagree i j (by have := Finset.mem_range.mp hi; omega)
        (by have := Finset.mem_range.mp hj; omega)]
    · simp only
      congr 1
      refine Finset.sum_congr rfl (fun i hi => ?_)
      refine Finset.sum_congr rfl (fun j hj => ?_)
      rw [hagree i j (by have := Finset.mem_range.mp hi; omega)
        (by have := Finset.mem_range.mp hj; omega)]
  · rw [if_neg hcond, if_neg hcond]

/-- C10 witness: two concrete 2×2 matrices agreeing only at the single cell
the integral reads, with a concrete grid. -/
theorem C10_integrate_ignores_witness :
    integrate sampleMatA [0, 1] [0, 2] none =
      integrate sampleMatB [0, 1] [0, 2] none :=
  C10_integrate_ignores_last_row_col sampleMatA sampleMatB [0, 1] [0, 2] none
    rfl rfl
    (by
      intro i j hi hj
      have hi0 : i = 0 := by
        have : sampleMatA.rows = 2 := rfl
        omega
      have hj0 : j = 0 := by
        have : sampleMatA.cols = 2 := rfl
        omega
      subst hi0; subst hj0
      rfl)

/-- With a positive extension count and a nonempty axis vector, the
extended vector is nonempty, so `extendAxis` succeeds; the re-centring map
does not change the length of the `extend` concatenated period copies. -/
theorem extendAxis_ok (vec : List ℚ) (period : ℚ) (extend : Nat)
    (hpos : 0 < extend) (hne : vec ≠ []) :
    ∃ xe, extendAxis vec period extend = Except.ok xe ∧
      xe.length = extend * vec.length := by
  have hlen : ((List.range extend).flatMap
      (fun i => vec.map (fun v => v + period * (i : ℚ)))).length
        = extend * vec.length :=
    length_flatMap_const _ extend vec.length (fun i => by simp)
  unfold extendAxis
  rcases hraw : (List.range extend).flatMap
      (fun i => vec.map (fun v => v + period * (i : ℚ))) with _ | ⟨v0, rest⟩
  · exfalso
    rw [hraw] at hlen
    simp only [List.length_nil] at hlen
    rcases Nat.mul_eq_zero.mp hlen.symm with h | h
    · omega
    · exact hne (List.length_eq_zero.mp h)
  · refine ⟨_, rfl, ?_⟩
    rw [hraw] at hlen
    simpa using hlen

/-- Each `(i, j)` period block of the tiled matrix equals the original. -/
theorem extendGrid_block {γ : Type} (mat : List (List γ)) (lx ly ex ey : Nat)
    (hlen : mat.length = lx) (hrows : ∀ row ∈ mat, row.length = ly)
    (i j r c : Nat) (dr : List γ) (d : γ) (hi : i < ex) (hj : j < ey)
    (hr : r < lx) (hc : c < ly) :
    ((extendGrid mat ex ey).getD (i * lx + r) dr).getD (j * ly + c) d
      = (mat.getD r []).getD c d := by
  unfold extendGrid
  have hR : (mat.map (fun row => (List.replicate ey row).flatten)).length = lx := by
    simpa using hlen
  have hr' : r < (mat.map (fun row => (List.replicate ey row).flatten)).length := by
    rw [hR]; exact hr
  rw [show i * lx + r
      = i * (mat.map (fun row => (List.replicate ey row).flatten)).length + r by rw [hR]]
  rw [getD_flatten_replicate i ex _ r dr hi hr']
  rw [getD_map_of_lt _ mat r dr [] (by rwa [hlen])]
  have hmem : mat.getD r [] ∈ mat := by
    rw [List.getD_eq_getElem mat [] (by rwa [hlen])]
    exact List.getElem_mem _
  have hrow : (mat.getD r []).length = ly := hrows _ hmem
  rw [show j * ly + c = j * (mat.getD r []).length + c by rw [hrow]]
  exact getD_flatten_replicate j ey _ c d hj (by rwa [hrow])

/-- C8: for positive extension counts and nonempty axis vectors (an empty
axis or zero extension makes the source raise `IndexError` while
re-centring), `extendField` succeeds and returns axis vectors of lengths
exactly `extend_x * len(x_vec)` and `extend_y * len(y_vec)`, and tiled E/H
matrices in which every `(i, j)` period block equals the original matrix
cell-for-cell (cells carry the trailing tensor axes, of arbitrary type,
unchanged). -/
theorem C8_extendField_tiling {α β : Type} (x_vec y_vec : List ℚ)
    (e_mat : List (List α)) (h_mat : List (List β)) (period_x period_y : ℚ)
    (extend_x extend_y : Nat) (hex : 0 < extend_x) (hey : 0 < extend_y)
    (hxne : x_vec ≠ []) (hyne : y_vec ≠ [])
    (hE : e_mat.length = x_vec.length)
    (hErows : ∀ row ∈ e_mat, row.length = y_vec.length)
    (hH : h_mat.length = x_vec.length)
    (hHrows : ∀ row ∈ h_mat, row.length = y_vec.length) :
    ∃ x_extend_vec y_extend_vec e_extend_mat h_extend_mat,
      extendField x_vec y_vec e_mat h_mat period_x period_y extend_x extend_y =
        Except.ok (x_extend_vec, y_extend_vec, e_extend_mat, h_extend_mat) ∧
      x_extend_vec.length = extend_x * x_vec.length ∧
      y_extend_vec.length = extend_y * y_vec.length ∧
      (∀ i j r c (dr : List α) (d : α), i < extend_x → j < extend_y →
          r < x_vec.length → c < y_vec.length →
        (e_extend_mat.getD (i * x_vec.length + r) dr).getD
            (j * y_vec.length + c) d = (e_mat.getD r []).getD c d) ∧
      (∀ i j r c (dr : List β) (d : β), i < extend_x → j < extend_y →
          r < x_vec.length → c < y_vec.length →
        (h_extend_mat.getD (i * x_vec.length + r) dr).getD
            (j * y_vec.length + c) d = (h_mat.getD r []).getD c d) := by
  obtain ⟨xe, hxe, hxlen⟩ := extendAxis_ok x_vec period_x extend_x hex hxne
  obtain ⟨ye, hye, hylen⟩ := extendAxis_ok y_vec period_y extend_y hey hyne
  refine ⟨xe, ye, extendGrid e_mat extend_x extend_y,
    extendGrid h_mat extend_x extend_y, ?_, hxlen, hylen, ?_, ?_⟩
  · unfold extendField
    rw [hxe, hye]
  · intro i j r c dr d hi hj hr hc
    exact extendGrid_block e_mat x_vec.length y_vec.length extend_x extend_y
      hE hErows i j r c dr d hi hj hr hc
  · intro i j r c dr d hi hj hr hc
    exact extendGrid_block h_mat x_vec.length y_vec.length extend_x extend_y
      hH hHrows i j r c dr d hi hj hr hc

/-- C8 witness: a concrete 2×1 field tiled 2×2; `extendField` succeeds, the
combined x axis has length 4 and the `(1, 1)` block cell `(1, 0)` equals
the original cell `(1, 0)`. -/
theorem C8_extendField_tiling_witness :
    ∃ x_extend_vec y_extend_vec e_extend_mat h_extend_mat,
      extendField [0, 1] [5] [[(1 : ℚ)], [2]] [[(3 : ℚ)], [4]] 2 1 2 2 =
        Except.ok (x_extend_vec, y_extend_vec, e_extend_mat, h_extend_mat) ∧
      x_extend_vec.length = 2 * 2 ∧
      (e_extend_mat.getD (1 * 2 + 1) []).getD (1 * 1 + 0) 0
        = (([[(1 : ℚ)], [2]]).getD 1 []).getD 0 0 := by
  obtain ⟨xe, ye, Ee, He, heq, hxlen, hylen, hblockE, hblockH⟩ :=
    C8_extendField_tiling [0, 1] [5] [[(1 : ℚ)], [2]] [[(3 : ℚ)], [4]] 2 1 2 2
      (by decide) (by decide) (by decide) (by decide) (by decide)
      (by intro row hrow; simp only [List.mem_cons, List.not_mem_nil, or_false] at hrow
          rcases hrow with rfl | rfl <;> rfl)
      (by decide)
      (by intro row hrow; simp only [List.mem_cons, List.not_mem_nil, or_false] at hrow
          rcases hrow with rfl | rfl <;> rfl)
  exact ⟨xe, ye, Ee, He, heq, hxlen,
    hblockE 1 1 1 0 [] 0 (by decide) (by decide) (by decide) (by decide)⟩

/-- `toFdtdDataset` succeeds on a field whose tensors match the axis-derived
shape `(len(x), len(y), len(z), len(wavelength), 3)`. -/
theorem toFdtdDataset_ok (wv xv yv zv : List ℚ) (e h : Tensor)
    (hesh : e.shape = [xv.length, yv.length, zv.length, wv.length, 3])
    (hhsh : h.shape = [xv.length, yv.length, zv.length, wv.length, 3]) :
    ∃ ds, (em_field.mk (some wv) (some xv) (some yv) (some zv)
        (some e) (some h)).toFdtdDataset = Except.ok ds := by
  have hx : ((fdtd_em_dataset.new.setWavelength wv).setRegion xv yv zv).x_vec
      = some xv := rfl
  have hy : ((fdtd_em_dataset.new.setWavelength wv).setRegion xv yv zv).y_vec
      = some yv := rfl
  have hz : ((fdtd_em_dataset.new.setWavelength wv).setRegion xv yv zv).z_vec
      = some zv := rfl
  have hwv : ((fdtd_em_dataset.new.setWavelength wv).setRegion xv yv zv).wavelength_vec
      = some wv := rfl
  have hsetE : ∃ d1, ((fdtd_em_dataset.new.setWavelength wv).setRegion xv yv zv).setE e
      = Except.ok d1 ∧ d1.x_vec = some xv ∧ d1.y_vec = some yv ∧
        d1.z_vec = some zv ∧ d1.wavelength_vec = some wv := by
    unfold fdtd_em_dataset.setE
    simp only [hx, hy, hz, hwv]
    rw [if_pos hesh]
    exact ⟨_, rfl, rfl, rfl, rfl, rfl⟩
  obtain ⟨d1, hd1, hx1, hy1, hz1, hw1⟩ := hsetE
  have hsetH : ∃ d2, d1.setH h = Except.ok d2 := by
    unfold fdtd_em_dataset.setH
    simp only [hx1, hy1, hz1, hw1]
    rw [if_pos hhsh]
    exact ⟨_, rfl⟩
  obtain ⟨d2, hd2⟩ := hsetH
  refine ⟨d2, ?_⟩
  unfold em_field.toFdtdDataset
  simp only [hd1, hd2]

/-- C4: every call of `fieldPropagationLumapi` that reaches the simulator
returns a tensor whose trailing wavelength axis has length equal to the
number of requested wavelength indices (explicitly given non-empty list, or
the full 0..N-1 range when defaulted): assuming the simulator's raw result
has shape `(X, Y, Z, 3)` when exactly one wavelength was requested (the
collapsed form) and `(X, Y, Z, 3, W)` otherwise, the returned tensor always
has shape `(X, Y, Z, 3, W)`; in the single-wavelength case the raw result
is reshaped by appending a trailing singleton axis. -/
theorem C4_result_shape (field : em_field) (wv xv yv zv : List ℚ)
    (e h : Tensor) (dest_x dest_y dest_z : List ℚ)
    (wavelength_index_vec : Option (List Nat)) (l : List Nat) (index : ℚ)
    (f : FdtdFun) (X Y Z : Nat)
    (hwv : field.wavelength_vec = some wv) (hxv : field.x_vec = some xv)
    (hyv : field.y_vec = some yv) (hzv : field.z_vec = some zv)
    (he : field.e_mat = some e) (hh : field.h_mat = some h)
    (hesh : e.shape = [xv.length, yv.length, zv.length, wv.length, 3])
    (hhsh : h.shape = [xv.length, yv.length, zv.length, wv.length, 3])
    (heff : wavelength_index_vec = some l ∨
            wavelength_index_vec = none ∧ l = List.range wv.length)
    (hl : l ≠ [])
    (hsim : ∀ ds a b c w i, (f ds a b c w i).shape =
        if l.length = 1 then [X, Y, Z, 3] else [X, Y, Z, 3, l.length]) :
    ∃ t, fieldPropagationLumapi field dest_x dest_y dest_z
        wavelength_index_vec index (some f) = Except.ok (PropResult.field t) ∧
      t.shape = [X, Y, Z, 3, l.length] := by
  have he5 : 5 ≤ e.shape.length := by rw [hesh]; simp
  have hh5 : 5 ≤ h.shape.length := by rw [hhsh]; simp
  obtain ⟨ds, hds⟩ := toFdtdDataset_ok wv xv yv zv e h hesh hhsh
  rcases heff with heq | ⟨heq, hleq⟩
  · subst heq
    rcases l with _ | ⟨a, as⟩
    · exact absurd rfl hl
    · simp only [fieldPropagationLumapi, em_field.getWavelength, em_field.getX,
        em_field.getY, em_field.getZ, em_field.getE, em_field.getH,
        hwv, hxv, hyv, hzv, he, hh]
      rw [if_pos ⟨he5, hh5⟩, hds]
      split
      · next heq2 => exact absurd heq2 (by simp)
      · next ds2 heq2 =>
        rcases as with _ | ⟨b, bs⟩
        · rw [if_neg (by simp)]
          refine ⟨_, rfl, ?_⟩
          simp [npAppendUnitAxis, hsim]
        · rw [if_pos (by simp)]
          refine ⟨_, rfl, ?_⟩
          rw [hsim]
          rw [if_neg (by simp)]
  · subst heq
    subst hleq
    simp only [fieldPropagationLumapi, em_field.getWavelength, em_field.getX,
      em_field.getY, em_field.getZ, em_field.getE, em_field.getH,
      hwv, hxv, hyv, hzv, he, hh]
    rw [if_pos ⟨he5, hh5⟩, hds]
    have hpos : 0 < wv.length := by
      rcases Nat.eq_zero_or_pos wv.length with h0 | h0
      · exact absurd (by simp [h0]) hl
      · exact h0
    simp only [List.length_range] at hsim ⊢
    split
    · next hgt =>
      refine ⟨_, rfl, ?_⟩
      rw [hsim]
      rw [if_neg (by omega)]
    · next hle =>
      have h1 : wv.length = 1 := by omega
      refine ⟨_, rfl, ?_⟩
      simp [npAppendUnitAxis, hsim, h1]

/-- A concrete simulator stub returning a collapsed-shape `(4, 5, 6, 3)`
tensor, as the raw far-field result for a single requested wavelength. -/
def constSimFun : FdtdFun := fun _ _ _ _ _ _ => { shape := [4, 5, 6, 3], data := [] }

/-- C4 witness: one requested wavelength index on a concrete well-formed
field; the collapsed simulator result comes back with the trailing
singleton wavelength axis re-appended. -/
theorem C4_result_shape_witness :
    ∃ t, fieldPropagationLumapi sampleFieldFull [0] [0] [0] (some [0]) 1
        (some constSimFun) = Except.ok (PropResult.field t) ∧
      t.shape = [4, 5, 6, 3, 1] := by
  have h := C4_result_shape sampleFieldFull [1] [0] [0] [0] tensor11113 tensor11113
    [0] [0] [0] (some [0]) [0] 1 constSimFun 4 5 6
    rfl rfl rfl rfl rfl rfl (by decide) (by decide)
    (Or.inl rfl) (by decide)
    (fun _ _ _ _ _ _ => rfl)
  simpa using h
